import Mathlib

/-!
Verification of the BAF radar simulator core (kinematics, conflict detection,
radar sweep tracking, and the command subsystem) against its design document.

The JavaScript sources are shallowly embedded over `ℚ`.  Calls into the host
math library (`Math.sin`, `Math.cos`, `Math.sqrt`, `Math.atan2` composed with
the radian/degree conversions) are abstracted as explicit function parameters
(`msin`, `mcos`, `msqrt`, `matan2`): every theorem quantifies over them unless
a concrete scenario pins down the single value the library would return there.
`Math.sign`, the JavaScript `%` remainder (sign of the dividend) and the `||`
fallback on numbers (which treats `0` as falsy) are modelled exactly.
-/

namespace RadarSim

/-- `Math.sign`. -/
def sgn (q : ℚ) : ℚ := if 0 < q then 1 else if q < 0 then -1 else 0

/-- Truncation toward zero, as used by the JavaScript `%` operator. -/
def rtrunc (q : ℚ) : ℤ := if 0 ≤ q then ⌊q⌋ else ⌈q⌉

/-- The JavaScript remainder `a % b`: its sign follows the dividend. -/
def jsRem (a b : ℚ) : ℚ := a - b * rtrunc (a / b)

/-- The JavaScript `x || d` fallback on numbers: `0` is falsy. -/
def jsOr (x d : ℚ) : ℚ := if x = 0 then d else x

/-- Mathematical remainder in `[0, 360)`, used to state angle properties. -/
def posMod (x : ℚ) : ℚ := x - 360 * ⌊x / 360⌋

/-- Angular (circular) distance in degrees between two headings. -/
def angDist (a b : ℚ) : ℚ := min (posMod (a - b)) (360 - posMod (a - b))

/-! ### Data model (`config.js`, `aircraft.js`) -/

/-- Performance profile, `AIRCRAFT_PROFILES` entries in `config.js`. -/
structure Profile where
  maxSpeed : ℚ
  accel : ℚ
  decel : ℚ
  maxClimb : ℚ
  turnRateDegPerSec : ℚ
deriving DecidableEq

/-- `AIRCRAFT_PROFILES.generic`. -/
def genericProfile : Profile :=
  { maxSpeed := 600, accel := 50, decel := 50, maxClimb := 4000,
    turnRateDegPerSec := 3 }

/-- `AIRCRAFT_PROFILES.hypersonic`. -/
def hypersonicProfile : Profile :=
  { maxSpeed := 15000, accel := 2000, decel := 2000, maxClimb := 15000,
    turnRateDegPerSec := 1/2 }

/-- Aircraft category: the `Aircraft` class or its `HypersonicAircraft` subclass. -/
inductive ACType where
  | generic
  | hypersonic
deriving DecidableEq

/-- Behavioural tag stored in `this.state`. -/
inductive Tag where
  | cruising
  | following_command
  | climbing
  | descending
  | holding
  | evasive
  | turning_limited
deriving DecidableEq

/-- The `this.target` record of an aircraft. -/
structure Target where
  heading : ℚ
  speed : ℚ
  altitude : ℚ
  waypoint : Option (ℚ × ℚ)
deriving DecidableEq

/-- Aircraft state, the fields of the `Aircraft` class that the core reads. -/
structure Aircraft where
  callsign : List Char
  type : ACType
  posKm : ℚ × ℚ
  heading : ℚ
  speedKts : ℚ
  altitudeFt : ℚ
  state : Tag
  target : Target
  profile : Profile
deriving DecidableEq

/-! ### Kinematics (`js/core/physics.js`) -/

/-- `KNOTS_TO_KMS = 0.000514444`. -/
def KNOTS_TO_KMS : ℚ := 514444 / 1000000000

/-- `integratePosition(aircraft, dt, env)`.  `msin d`/`mcos d` stand for
`Math.sin(d*Math.PI/180)`/`Math.cos(d*Math.PI/180)`; `wind` is `env.wind`
(`none` when the field is absent). -/
def integratePosition (msin mcos : ℚ → ℚ) (ac : Aircraft) (dt : ℚ)
    (wind : Option (ℚ × ℚ)) : ℚ × ℚ :=
  let speedKms := ac.speedKts * KNOTS_TO_KMS
  let dx := msin ac.heading * speedKms * dt
  let dy := mcos ac.heading * speedKms * dt
  match wind with
  | some w =>
      if 0 < w.2 then
        let windSpeedKms := w.2 * KNOTS_TO_KMS
        (ac.posKm.1 + (dx + msin w.1 * windSpeedKms * dt),
         ac.posKm.2 + (dy + mcos w.1 * windSpeedKms * dt))
      else (ac.posKm.1 + dx, ac.posKm.2 + dy)
  | none => (ac.posKm.1 + dx, ac.posKm.2 + dy)

/-- `computeTurn(ac, targetHeading, dt, profile)`. -/
def computeTurn (ac : Aircraft) (targetHeading dt : ℚ) (profile : Profile) : ℚ :=
  let from_ := ac.heading
  let to_ := jsRem (targetHeading + 360) 360
  let d := jsRem (to_ - from_ + 540) 360 - 180
  let maxTurn := jsOr profile.turnRateDegPerSec 3 * dt
  if |d| ≤ maxTurn then to_
  else jsRem (from_ + sgn d * maxTurn + 360) 360

/-- `computeSpeedChange(ac, targetSpeed, dt, profile)`; `none` models an
`undefined` target. -/
def computeSpeedChange (ac : Aircraft) (targetSpeed : Option ℚ) (dt : ℚ)
    (profile : Profile) : ℚ :=
  match targetSpeed with
  | none => ac.speedKts
  | some ts =>
      let diff := ts - ac.speedKts
      let accel := if 0 < diff then profile.accel else profile.decel
      let change := sgn diff * min |diff| (accel * dt)
      ac.speedKts + change

/-- `computeAltitudeChange(ac, targetAlt, dt, profile)`. -/
def computeAltitudeChange (ac : Aircraft) (targetAlt : Option ℚ) (dt : ℚ)
    (profile : Profile) : ℚ :=
  match targetAlt with
  | none => ac.altitudeFt
  | some ta =>
      let diff := ta - ac.altitudeFt
      let maxC := jsOr profile.maxClimb 2000
      let change := sgn diff * min |diff| (maxC / 60 * dt)
      ac.altitudeFt + change

/-- The shared rate-limited approach shape of `computeSpeedChange` and
`computeAltitudeChange`: move `s` towards `T` by at most
`(accel or decel)·dt`. -/
def approach (a d dt T s : ℚ) : ℚ :=
  let diff := T - s
  let r := if 0 < diff then a else d
  s + sgn diff * min |diff| (r * dt)

/-- One physics tick restricted to the speed field:
`this.speedKts = Physics.computeSpeedChange(this, target, dt, profile)`. -/
def stepSpeed (ts dt : ℚ) (p : Profile) (ac : Aircraft) : Aircraft :=
  { ac with speedKts := computeSpeedChange ac (some ts) dt p }

/-- One physics tick restricted to the altitude field:
`this.altitudeFt = Physics.computeAltitudeChange(this, target, dt, profile)`. -/
def stepAlt (ta dt : ℚ) (p : Profile) (ac : Aircraft) : Aircraft :=
  { ac with altitudeFt := computeAltitudeChange ac (some ta) dt p }

/-- `velocityKmPerSec(ac)`. -/
def velocityKmPerSec (msin mcos : ℚ → ℚ) (ac : Aircraft) : ℚ × ℚ :=
  let speedKms := ac.speedKts * KNOTS_TO_KMS
  (msin ac.heading * speedKms, mcos ac.heading * speedKms)

/-- A conflict record `{ a, b, ttc, distAtCPA }` pushed by `detectConflicts`. -/
structure Conflict where
  a : Aircraft
  b : Aircraft
  ttc : ℚ
  distAtCPA : ℚ
deriving DecidableEq

/-- The body of the inner loop of `detectConflicts` for one pair `(a, b)`:
`some` of the conflict record when the pair is flagged, `none` when the pair
is skipped.  `msqrt q` stands for `Math.sqrt(q)`. -/
def pairCheck (msin mcos msqrt : ℚ → ℚ) (lookaheadTime lateralSepKm verticalSepFt : ℚ)
    (a b : Aircraft) : Option Conflict :=
  let relX := b.posKm.1 - a.posKm.1
  let relY := b.posKm.2 - a.posKm.2
  let va := velocityKmPerSec msin mcos a
  let vb := velocityKmPerSec msin mcos b
  let rvx := vb.1 - va.1
  let rvy := vb.2 - va.2
  let r2 := rvx * rvx + rvy * rvy
  if r2 = 0 then none
  else
    let tca := -(relX * rvx + relY * rvy) / r2
    if tca < 0 ∨ tca > lookaheadTime then none
    else
      let caX := relX + rvx * tca
      let caY := relY + rvy * tca
      let distAtCPA := msqrt (caX * caX + caY * caY)
      let altDiff := |a.altitudeFt - b.altitudeFt|
      if distAtCPA < lateralSepKm ∧ altDiff < verticalSepFt then
        some { a := a, b := b, ttc := tca, distAtCPA := distAtCPA }
      else none

/-- `detectConflicts(list, lookaheadTime, lateralSepKm, verticalSepFt)`: the
double loop `i < j` over the list, in iteration order. -/
def detectConflicts (msin mcos msqrt : ℚ → ℚ)
    (lookaheadTime lateralSepKm verticalSepFt : ℚ) :
    List Aircraft → List Conflict
  | [] => []
  | a :: rest =>
      rest.filterMap (pairCheck msin mcos msqrt lookaheadTime lateralSepKm verticalSepFt a)
        ++ detectConflicts msin mcos msqrt lookaheadTime lateralSepKm verticalSepFt rest

/-- Relative position `(relX, relY)` of the pair `(a, b)`. -/
def relPos (a b : Aircraft) : ℚ × ℚ :=
  (b.posKm.1 - a.posKm.1, b.posKm.2 - a.posKm.2)

/-- Relative velocity `(rvx, rvy)` of the pair `(a, b)`. -/
def relVel (msin mcos : ℚ → ℚ) (a b : Aircraft) : ℚ × ℚ :=
  ((velocityKmPerSec msin mcos b).1 - (velocityKmPerSec msin mcos a).1,
   (velocityKmPerSec msin mcos b).2 - (velocityKmPerSec msin mcos a).2)

/-- Time of closest approach `tca = -(relPos·relVel)/|relVel|²`. -/
def tcaOf (msin mcos : ℚ → ℚ) (a b : Aircraft) : ℚ :=
  -((relPos a b).1 * (relVel msin mcos a b).1 + (relPos a b).2 * (relVel msin mcos a b).2)
    / ((relVel msin mcos a b).1 * (relVel msin mcos a b).1
       + (relVel msin mcos a b).2 * (relVel msin mcos a b).2)

/-- Predicted planar distance between the pair at `tca`. -/
def cpaDist (msin mcos msqrt : ℚ → ℚ) (a b : Aircraft) : ℚ :=
  msqrt (((relPos a b).1 + (relVel msin mcos a b).1 * tcaOf msin mcos a b)
           * ((relPos a b).1 + (relVel msin mcos a b).1 * tcaOf msin mcos a b)
       + ((relPos a b).2 + (relVel msin mcos a b).2 * tcaOf msin mcos a b)
           * ((relPos a b).2 + (relVel msin mcos a b).2 * tcaOf msin mcos a b))

/-- The flagging condition stated by the design document: nonzero relative
velocity, `tca ∈ [0, lookahead]`, predicted lateral distance below the
lateral threshold, and current altitude gap below the vertical threshold. -/
def conflictCond (msin mcos msqrt : ℚ → ℚ) (lookaheadTime lateralSepKm verticalSepFt : ℚ)
    (a b : Aircraft) : Prop :=
  ¬((relVel msin mcos a b).1 = 0 ∧ (relVel msin mcos a b).2 = 0) ∧
  0 ≤ tcaOf msin mcos a b ∧ tcaOf msin mcos a b ≤ lookaheadTime ∧
  cpaDist msin mcos msqrt a b < lateralSepKm ∧
  |a.altitudeFt - b.altitudeFt| < verticalSepFt

instance (msin mcos msqrt : ℚ → ℚ) (L lat vert : ℚ) (a b : Aircraft) :
    Decidable (conflictCond msin mcos msqrt L lat vert a b) := by
  unfold conflictCond
  infer_instance

/-! ### Commands and their application (`js/core/aircraft.js`) -/

/-- A parsed command `{type, params}`. -/
inductive PCmd where
  | set_heading (heading : ℚ)
  | set_altitude (altitude : ℚ)
  | climb_to (altitude : ℚ)
  | descend_to (altitude : ℚ)
  | set_speed (speed : ℚ)
  | maintain (altitude : ℚ)
  | vector (x y : ℚ)
  | hold
deriving DecidableEq

/-- The note attached to a command result (`{ accepted, note }`). -/
inductive Note where
  | vghsLimit
deriving DecidableEq

/-- The result object returned by `applyCommand`. -/
structure CmdResult where
  accepted : Bool
  note : Option Note
deriving DecidableEq

/-- `Aircraft.prototype.applyCommand` — the base-class behaviour.  Command
types with no case (such as `set_altitude`) fall into `default` and change
nothing. -/
def Aircraft.applyCommand (ac : Aircraft) : PCmd → Aircraft × CmdResult
  | .set_heading h =>
      ({ ac with target.heading := h, state := .following_command },
       { accepted := true, note := none })
  | .climb_to alt =>
      ({ ac with target.altitude := alt, state := .climbing },
       { accepted := true, note := none })
  | .descend_to alt =>
      ({ ac with target.altitude := alt, state := .descending },
       { accepted := true, note := none })
  | .set_speed s =>
      ({ ac with target.speed := s }, { accepted := true, note := none })
  | .maintain alt =>
      ({ ac with target.altitude := alt }, { accepted := true, note := none })
  | .vector x y =>
      ({ ac with target.waypoint := some (x, y) }, { accepted := true, note := none })
  | .hold => ({ ac with state := .holding }, { accepted := true, note := none })
  | .set_altitude _ => (ac, { accepted := true, note := none })

/-- `HypersonicAircraft.prototype.applyCommand` — the subclass override. -/
def Hypersonic.applyCommand (ac : Aircraft) (cmd : PCmd) : Aircraft × CmdResult :=
  match cmd with
  | .set_heading h =>
      let diff := |jsRem (h - ac.heading + 540) 360 - 180|
      if ac.speedKts > 660 ∧ diff > 30 then
        ({ ac with
            target.heading := jsRem (ac.heading + (if h > ac.heading then 30 else -30)) 360,
            state := .turning_limited },
         { accepted := true, note := some .vghsLimit })
      else ac.applyCommand cmd
  | _ => ac.applyCommand cmd

/-- Dynamic dispatch of `applyCommand` on the class of the aircraft. -/
def applyCommandDispatch (ac : Aircraft) (cmd : PCmd) : Aircraft × CmdResult :=
  match ac.type with
  | .hypersonic => Hypersonic.applyCommand ac cmd
  | .generic => ac.applyCommand cmd

/-- The heading an aircraft holds at the end of a physics tick:
`Aircraft.prototype.update` assigns
`this.heading = Physics.computeTurn(this, this.target.heading, dt, this.profile)`. -/
def tickHeading (ac : Aircraft) (dt : ℚ) : ℚ :=
  computeTurn ac ac.target.heading dt ac.profile

/-! ### Command grammar (`js/ui/three-viewer.js`, heading-verb variant)

The raw line is embedded as a `List Char`.  `splitWs` models
`raw.trim().split(/\s+/)` (maximal whitespace runs as separators, no empty
tokens). -/

/-- Split on runs of whitespace; the accumulator holds the current token
reversed. -/
def splitWsAux : List Char → List Char → List (List Char)
  | [], acc => if acc.isEmpty then [] else [acc.reverse]
  | c :: cs, acc =>
      if c.isWhitespace then
        if acc.isEmpty then splitWsAux cs [] else acc.reverse :: splitWsAux cs []
      else splitWsAux cs (c :: acc)

/-- `s.trim().split(/\s+/)`, with no empty tokens. -/
def splitWs (s : List Char) : List (List Char) := splitWsAux s []

/-- The regex `/^\d{1,3}$/`. -/
def isDigits1to3 (s : List Char) : Bool :=
  s.all Char.isDigit && decide (1 ≤ s.length) && decide (s.length ≤ 3)

/-- Numeric value of a digit string. -/
def digitsVal (s : List Char) : ℚ :=
  ((s.foldl (fun n c => 10 * n + (c.toNat - 48)) 0 : ℕ) : ℚ)

/-- `parseFloat` restricted to the shapes this grammar feeds it: the value of
the leading run of decimal digits (`0` in place of JavaScript `NaN` for a
token with no leading digit — no claim exercises that case). -/
def jsParseFloat (s : List Char) : ℚ := digitsVal (s.takeWhile Char.isDigit)

/-- Parse errors (the `{ ok:false, error }` messages, as an enumeration). -/
inductive PErr where
  | emptyCommand
  | incomplete
  | invalidHeading
  | invalidAltitude
  | missingParam
  | unknownVerb
deriving DecidableEq

/-- Result of `parseRawCommand`: `{ ok:true, callsign, commands }` or
`{ ok:false, error }`. -/
inductive ParseResult where
  | ok (callsign : List Char) (commands : List PCmd)
  | error (e : PErr)
deriving DecidableEq

/-- The verb/parameter loop of `parseRawCommand` (heading-verb variant:
`H <1-3 digits>`, `A <1-3 digits>`, `S <number>`). -/
def parseCmds : List (List Char) → Except PErr (List PCmd)
  | [] => .ok []
  | verb :: rest =>
      let v := verb.map Char.toLower
      if v = ['h'] then
        match rest with
        | [] => .error .missingParam
        | p :: rest' =>
            if isDigits1to3 p then
              match parseCmds rest' with
              | .error e => .error e
              | .ok cs => .ok (.set_heading (jsParseFloat p) :: cs)
            else .error .invalidHeading
      else if v = ['a'] then
        match rest with
        | [] => .error .missingParam
        | p :: rest' =>
            if isDigits1to3 p then
              let altValue := jsParseFloat p * (if p.length > 2 then 100 else 1000)
              match parseCmds rest' with
              | .error e => .error e
              | .ok cs => .ok (.set_altitude altValue :: cs)
            else .error .invalidAltitude
      else if v = ['s'] then
        match rest with
        | [] => .error .missingParam
        | p :: rest' =>
            match parseCmds rest' with
            | .error e => .error e
            | .ok cs => .ok (.set_speed (jsParseFloat p) :: cs)
      else .error .unknownVerb

/-- `parseRawCommand(raw)`. -/
def parseRawCommand (raw : List Char) : ParseResult :=
  if raw = [] then .error .emptyCommand
  else
    match splitWs (raw.map Char.toUpper) with
    | [] => .error .incomplete
    | [_] => .error .incomplete
    | callsign :: commandParts =>
        match parseCmds commandParts with
        | .error e => .error e
        | .ok cmds => .ok callsign cmds

/-! ### Validation and dispatch (`js/ui/three-viewer.js`, `part_004`) -/

/-- Validation errors (the `{ ok:false, reason }` strings, as an
enumeration). -/
inductive VErr where
  | unknownCallsign
  | altitudeTooHigh
  | speedExceedsLimits
deriving DecidableEq

/-- Case-insensitive callsign comparison used by
`getAircraftByCallsign`. -/
def callsignMatches (cs : List Char) (a : Aircraft) : Bool :=
  a.callsign.map Char.toUpper = cs.map Char.toUpper

/-- `Simulation.getAircraftByCallsign` (`find` returns the first match). -/
def getAircraftByCallsign (sim : List Aircraft) (cs : List Char) : Option Aircraft :=
  sim.find? (callsignMatches cs)

/-- `validateCommand(command, sim)`: `none` is `{ ok:true }`, `some e` is
`{ ok:false, reason:e }`. -/
def validateCommand (sim : List Aircraft) (cs : List Char) (c : PCmd) : Option VErr :=
  match getAircraftByCallsign sim cs with
  | none => some .unknownCallsign
  | some ac =>
      let altErr : Option VErr :=
        match c with
        | .climb_to alt | .descend_to alt =>
            if ac.type ≠ .hypersonic ∧ alt > 100000 then some .altitudeTooHigh else none
        | _ => none
      match altErr with
      | some e => some e
      | none =>
          match c with
          | .set_speed s =>
              if s > ac.profile.maxSpeed * (12/10) then some .speedExceedsLimits else none
          | _ => none

/-- Replace the first list element satisfying `p` (the object `find` would
return and `applyCommand` would mutate). -/
def updateFirst (p : Aircraft → Bool) (f : Aircraft → Aircraft) : List Aircraft → List Aircraft
  | [] => []
  | a :: rest => if p a then f a :: rest else a :: updateFirst p f rest

/-- `dispatchCommand(command, sim)`: look the aircraft up and apply the
command through its (polymorphic) `applyCommand`.  The `relative_` heading
normalisation is the identity here because every heading this grammar
produces is numeric. -/
def dispatchCommand (sim : List Aircraft) (cs : List Char) (c : PCmd) : List Aircraft :=
  match getAircraftByCallsign sim cs with
  | none => sim
  | some _ => updateFirst (callsignMatches cs) (fun ac => (applyCommandDispatch ac c).1) sim

/-- One iteration of the command loop of `Simulation.processCommand`:
validate the command against the current state, skip it on failure
(`continue`), dispatch it otherwise. -/
def chainStep (cs : List Char) (s : List Aircraft) (c : PCmd) : List Aircraft :=
  match validateCommand s cs c with
  | some _ => s
  | none => dispatchCommand s cs c

/-- The command loop of `Simulation.processCommand` over a parsed chain. -/
def runChain (sim : List Aircraft) (cs : List Char) (cmds : List PCmd) : List Aircraft :=
  cmds.foldl (chainStep cs) sim

/-- `Simulation.processCommand(raw)`, restricted to its effect on the
aircraft registry (logging and metrics are display concerns). -/
def processCommand (raw : List Char) (sim : List Aircraft) : List Aircraft :=
  match parseRawCommand raw with
  | .error _ => sim
  | .ok cs cmds => runChain sim cs cmds

/-! ### Radar model (`part_001`, probabilistic sweep tracking)

`matan2 dy dx` stands for `Math.atan2(dy, dx) * 180 / Math.PI`; `rand` is the
stream of `Math.random()` draws, consumed in call order. -/

/-- The aircraft snapshot `getState()` hands to the radar. -/
structure RAC where
  id : ℚ
  x : ℚ
  y : ℚ
deriving DecidableEq

/-- A tracked-target entry `{ state, lastSeen }`. -/
structure RTrack where
  state : RAC
  lastSeen : ℚ
deriving DecidableEq

/-- The `Radar` class state; `trackedTargets` is the `Map` keyed by
aircraft id. -/
structure Radar where
  x : ℚ
  y : ℚ
  range : ℚ
  sweepSpeed : ℚ
  sweepAngle : ℚ
  trackedTargets : ℚ → Option RTrack

/-- `Map.set`. -/
def mapSet (m : ℚ → Option RTrack) (k : ℚ) (v : RTrack) : ℚ → Option RTrack :=
  fun i => if i = k then some v else m i

/-- `Map.delete`. -/
def mapDel (m : ℚ → Option RTrack) (k : ℚ) : ℚ → Option RTrack :=
  fun i => if i = k then none else m i

/-- `Radar.updateSweep(deltaTime)`. -/
def Radar.updateSweep (r : Radar) (deltaTime : ℚ) : Radar :=
  { r with sweepAngle := jsRem (r.sweepAngle + r.sweepSpeed * deltaTime) 360 }

/-- The pruning pass of `detectAircraft`: drop entries not seen for more than
`persistenceTime`. -/
def pruneTracks (m : ℚ → Option RTrack) (currentTime persistenceTime : ℚ) :
    ℚ → Option RTrack :=
  fun k =>
    match m k with
    | some tr => if currentTime - tr.lastSeen > persistenceTime then none else some tr
    | none => none

/-- The detection loop of `detectAircraft` over the aircraft list; `k` indexes
the next `Math.random()` draw. -/
def detectLoop (matan2 : ℚ → ℚ → ℚ) (msqrt : ℚ → ℚ)
    (rx ry range sweepAngle currentTime : ℚ) (rand : ℕ → ℚ) :
    List RAC → (ℚ → Option RTrack) → ℕ → (ℚ → Option RTrack)
  | [], m, _ => m
  | a :: rest, m, k =>
      let dx := a.x - rx
      let dy := a.y - ry
      let distance := msqrt (dx * dx + dy * dy)
      if distance ≤ range then
        let angleToAircraft := matan2 dy dx
        let angleDiff := |jsRem (angleToAircraft - sweepAngle + 180) 360 - 180|
        if angleDiff ≤ 30 / 2 then
          let snr := max 0 (1 - distance / range)
          let detectProb := snr * (1 - 2/100)
          if rand k < detectProb then
            detectLoop matan2 msqrt rx ry range sweepAngle currentTime rand rest
              (mapSet m a.id { state := a, lastSeen := currentTime }) (k + 1)
          else
            detectLoop matan2 msqrt rx ry range sweepAngle currentTime rand rest m (k + 1)
        else detectLoop matan2 msqrt rx ry range sweepAngle currentTime rand rest m k
      else
        detectLoop matan2 msqrt rx ry range sweepAngle currentTime rand rest
          (mapDel m a.id) k

/-- `Radar.detectAircraft(aircraftList, currentTime)`. -/
def Radar.detectAircraft (matan2 : ℚ → ℚ → ℚ) (msqrt : ℚ → ℚ) (rand : ℕ → ℚ)
    (r : Radar) (aircraftList : List RAC) (currentTime : ℚ) : Radar :=
  let persistenceTime := 360 / r.sweepSpeed
  let pruned := pruneTracks r.trackedTargets currentTime persistenceTime
  { r with
      trackedTargets :=
        detectLoop matan2 msqrt r.x r.y r.range r.sweepAngle currentTime rand
          aircraftList pruned 0 }

/-- Whether one aircraft passes both the range test and the (code-computed)
beam test — exactly the aircraft that consume a `Math.random()` draw. -/
def beamHit (matan2 : ℚ → ℚ → ℚ) (msqrt : ℚ → ℚ) (rx ry range sweepAngle : ℚ)
    (a : RAC) : Bool :=
  let dx := a.x - rx
  let dy := a.y - ry
  let distance := msqrt (dx * dx + dy * dy)
  decide (distance ≤ range) &&
    decide (|jsRem (matan2 dy dx - sweepAngle + 180) 360 - 180| ≤ 30 / 2)

/-- The distance the radar computes for one aircraft. -/
def acDistance (msqrt : ℚ → ℚ) (rx ry : ℚ) (a : RAC) : ℚ :=
  msqrt ((a.x - rx) * (a.x - rx) + (a.y - ry) * (a.y - ry))

/-- The angular difference the radar computes between the aircraft and the
sweep (JavaScript remainder semantics). -/
def acAngleDiff (matan2 : ℚ → ℚ → ℚ) (rx ry sweepAngle : ℚ) (a : RAC) : ℚ :=
  |jsRem (matan2 (a.y - ry) (a.x - rx) - sweepAngle + 180) 360 - 180|

/-- The detection probability the radar computes:
`max(0, 1 - distance/range) * (1 - 0.02)`. -/
def detectProbOf (msqrt : ℚ → ℚ) (rx ry range : ℚ) (a : RAC) : ℚ :=
  max 0 (1 - acDistance msqrt rx ry a / range) * (1 - 2 / 100)

/-- A radar at the origin, 100 km range, 60°/s sweep, beam pointing at 270°,
empty track map. -/
def radarSouthSweep : Radar :=
  { x := 0, y := 0, range := 100, sweepSpeed := 60, sweepAngle := 270,
    trackedTargets := fun _ => none }

/-- An aircraft 50 km due south of the radar (id 7). -/
def acSouth : RAC := { id := 7, x := 0, y := -50 }

/-- `Math.atan2(dy,dx)·180/π` at the only point the south scenario evaluates
it, `(dy,dx) = (-50,0)`: the value is `-90`. -/
def atan2South : ℚ → ℚ → ℚ := fun _ _ => -90

/-- `Math.atan2(dy,dx)·180/π` at the only point the north scenario evaluates
it, `(dy,dx) = (50,0)`: the value is `90`. -/
def atan2North : ℚ → ℚ → ℚ := fun _ _ => 90

/-- `Math.sqrt` at the only argument these scenarios evaluate it, `2500`:
the value is `50`. -/
def sqrtAt2500 : ℚ → ℚ := fun _ => 50

/-- A `Math.random()` stream that always draws 0. -/
def randZero : ℕ → ℚ := fun _ => 0

/-- A concrete generic aircraft used to exercise the theorems. -/
def sampleAC : Aircraft :=
  { callsign := ['A', 'C', '1', '0', '1'], type := .generic, posKm := (0, 0),
    heading := 0, speedKts := 250, altitudeFt := 10000, state := .cruising,
    target := { heading := 0, speed := 250, altitude := 10000, waypoint := none },
    profile := genericProfile }

/-- A concrete hypersonic aircraft used to exercise the theorems. -/
def sampleHX : Aircraft :=
  { callsign := ['H', 'X', '1', '0', '2'], type := .hypersonic, posKm := (5, 5),
    heading := 0, speedKts := 4000, altitudeFt := 9000, state := .cruising,
    target := { heading := 0, speed := 4000, altitude := 9000, waypoint := none },
    profile := hypersonicProfile }

/-! ### Arithmetic facts about the JavaScript remainder and angles -/

lemma jsOr_of_ne {x d : ℚ} (h : x ≠ 0) : jsOr x d = x := by simp [jsOr, h]

lemma posMod_nonneg (x : ℚ) : 0 ≤ posMod x := by
  have h : (⌊x / 360⌋ : ℚ) ≤ x / 360 := Int.floor_le _
  have h4 : (⌊x / 360⌋ : ℚ) * 360 ≤ x / 360 * 360 :=
    mul_le_mul_of_nonneg_right h (by norm_num)
  rw [div_mul_cancel₀ x (by norm_num : (360:ℚ) ≠ 0)] at h4
  unfold posMod
  linarith

lemma posMod_lt (x : ℚ) : posMod x < 360 := by
  have h : x / 360 < ⌊x / 360⌋ + 1 := Int.lt_floor_add_one _
  have h4 : x / 360 * 360 < ((⌊x / 360⌋ : ℚ) + 1) * 360 :=
    mul_lt_mul_of_pos_right h (by norm_num)
  rw [div_mul_cancel₀ x (by norm_num : (360:ℚ) ≠ 0)] at h4
  unfold posMod
  linarith

lemma posMod_shift (x : ℚ) (k : ℤ) : posMod (x + 360 * k) = posMod x := by
  unfold posMod
  have h : (x + 360 * k) / 360 = x / 360 + k := by
    rw [add_div, mul_div_cancel_left₀ (k : ℚ) (by norm_num : (360:ℚ) ≠ 0)]
  rw [h, Int.floor_add_int]
  push_cast
  ring

lemma posMod_eq_self {x : ℚ} (h0 : 0 ≤ x) (h1 : x < 360) : posMod x = x := by
  unfold posMod
  have h : ⌊x / 360⌋ = 0 := by
    rw [Int.floor_eq_zero_iff]
    exact ⟨div_nonneg h0 (by norm_num), by rw [div_lt_one (by norm_num)]; exact h1⟩
  rw [h]
  simp

lemma posMod_eq_of {x y : ℚ} (k : ℤ) (h0 : 0 ≤ y) (h1 : y < 360)
    (hk : x = y + 360 * k) : posMod x = y := by
  subst hk
  rw [posMod_shift, posMod_eq_self h0 h1]

lemma rtrunc_of_nonneg {q : ℚ} (h : 0 ≤ q) : rtrunc q = ⌊q⌋ := if_pos h

lemma jsRem_eq_posMod {a : ℚ} (ha : 0 ≤ a) : jsRem a 360 = posMod a := by
  unfold jsRem posMod
  rw [rtrunc_of_nonneg (div_nonneg ha (by norm_num))]

lemma angDist_shift_left (a b : ℚ) (k : ℤ) : angDist (a + 360 * k) b = angDist a b := by
  unfold angDist
  rw [show a + 360 * k - b = a - b + 360 * k by ring, posMod_shift]

lemma angDist_posMod_left (a b : ℚ) : angDist (posMod a) b = angDist a b := by
  have h : posMod a = a + 360 * ((-⌊a / 360⌋ : ℤ) : ℚ) := by
    unfold posMod
    push_cast
    ring
  rw [h, angDist_shift_left]

lemma angDist_eq_abs {a b : ℚ} (h1 : -180 ≤ a - b) (h2 : a - b ≤ 180) :
    angDist a b = |a - b| := by
  rcases le_or_lt 0 (a - b) with h | h
  · have hm : posMod (a - b) = a - b :=
      posMod_eq_self h (lt_of_le_of_lt h2 (by norm_num))
    unfold angDist
    rw [hm, abs_of_nonneg h, min_eq_left (by linarith)]
  · have hm : posMod (a - b) = a - b + 360 :=
      posMod_eq_of (-1) (by linarith) (by linarith) (by push_cast; ring)
    unfold angDist
    rw [hm, abs_of_neg h, min_eq_right (by linarith)]
    ring

lemma angDist_self (a : ℚ) : angDist a a = 0 := by
  have h := angDist_eq_abs (a := a) (b := a) (by norm_num) (by norm_num)
  simpa using h

lemma sgn_of_pos {q : ℚ} (h : 0 < q) : sgn q = 1 := if_pos h

lemma sgn_of_neg {q : ℚ} (h : q < 0) : sgn q = -1 := by
  unfold sgn
  rw [if_neg (by linarith), if_pos h]

/-- The signed shortest-angle difference `d` used by `computeTurn`: its range
and its congruence with `target - from` modulo 360. -/
lemma signedDiff_spec (f t : ℚ) :
    -180 ≤ posMod (t - f + 540) - 180 ∧ posMod (t - f + 540) - 180 < 180 ∧
      ∃ k : ℤ, t - f = (posMod (t - f + 540) - 180) + 360 * k := by
  refine ⟨by linarith [posMod_nonneg (t - f + 540)],
          by linarith [posMod_lt (t - f + 540)], ⟨⌊(t - f + 540) / 360⌋ - 1, ?_⟩⟩
  unfold posMod
  push_cast
  ring

/-- Rewriting `computeTurn` into the two-branch form over the mathematical
remainder, for headings already in `[0, 360)`. -/
lemma computeTurn_eq (ac : Aircraft) (target dt : ℚ) (p : Profile)
    (hf1 : ac.heading < 360)
    (ht0 : 0 ≤ target) (ht1 : target < 360) (hr : p.turnRateDegPerSec ≠ 0) :
    computeTurn ac target dt p =
      if |posMod (target - ac.heading + 540) - 180| ≤ p.turnRateDegPerSec * dt
      then target
      else jsRem (ac.heading
            + sgn (posMod (target - ac.heading + 540) - 180)
              * (p.turnRateDegPerSec * dt) + 360) 360 := by
  have hto : jsRem (target + 360) 360 = target := by
    rw [jsRem_eq_posMod (by linarith)]
    exact posMod_eq_of 1 ht0 ht1 (by push_cast; ring)
  have hd_eq : jsRem (target - ac.heading + 540) 360
      = posMod (target - ac.heading + 540) :=
    jsRem_eq_posMod (by linarith)
  simp only [computeTurn, hto, hd_eq, jsOr_of_ne hr]

/-- Angular distance between two headings that differ by `d` up to a whole
number of turns, for `d ∈ [-180, 180]`. -/
lemma angDist_of_congr (x y dd : ℚ) (k : ℤ) (hd1 : -180 ≤ dd) (hd2 : dd ≤ 180)
    (hk : x - y = dd + 360 * k) : angDist x y = |dd| := by
  have hx : x = y + dd + 360 * (k : ℚ) := by linarith
  rw [hx, angDist_shift_left, angDist_eq_abs (by linarith) (by linarith),
    show y + dd - y = dd by ring]

/-- The JavaScript remainder by 360 is the identity on `(-360, 360)`. -/
lemma jsRem_small {x : ℚ} (h1 : -360 < x) (h2 : x < 360) : jsRem x 360 = x := by
  unfold jsRem rtrunc
  rcases le_or_lt 0 x with h | h
  · rw [if_pos (div_nonneg h (by norm_num)),
      show ⌊x / 360⌋ = 0 from Int.floor_eq_zero_iff.2
        ⟨div_nonneg h (by norm_num), by rw [div_lt_one (by norm_num)]; exact h2⟩]
    push_cast
    ring
  · rw [if_neg (not_le.2 (div_neg_of_neg_of_pos h (by norm_num))),
      show ⌈x / 360⌉ = 0 from Int.ceil_eq_zero_iff.2
        ⟨by rw [lt_div_iff₀ (by norm_num)]; linarith,
         le_of_lt (div_neg_of_neg_of_pos h (by norm_num))⟩]
    push_cast
    ring

/-- The angular distance between two headings equals the magnitude of the
signed difference `((t - f + 540) mod 360) - 180`. -/
lemma angDist_eq_signedDiff (f t : ℚ) :
    angDist t f = |posMod (t - f + 540) - 180| := by
  obtain ⟨hd1, hd2, k, hk⟩ := signedDiff_spec f t
  exact angDist_of_congr t f _ k hd1 hd2.le hk

/-- `computeTurn` in two-branch form for a target anywhere in `(-360, 360)`
(the effective turn rate `turnRateDegPerSec || 3` left as is). -/
lemma computeTurn_eq' (ac : Aircraft) (target dt : ℚ) (p : Profile)
    (hf1 : ac.heading < 360) (ht0 : -360 < target) (ht1 : target < 360) :
    computeTurn ac target dt p =
      if |posMod (target - ac.heading + 540) - 180| ≤ jsOr p.turnRateDegPerSec 3 * dt
      then posMod target
      else jsRem (ac.heading
            + sgn (posMod (target - ac.heading + 540) - 180)
              * (jsOr p.turnRateDegPerSec 3 * dt) + 360) 360 := by
  have hto : jsRem (target + 360) 360 = posMod target := by
    rw [jsRem_eq_posMod (by linarith),
      show target + 360 = target + 360 * ((1:ℤ):ℚ) by push_cast; ring, posMod_shift]
  have h1 : 0 ≤ posMod target := posMod_nonneg target
  have hd_eq : jsRem (posMod target - ac.heading + 540) 360
      = posMod (target - ac.heading + 540) := by
    rw [jsRem_eq_posMod (by linarith),
      show posMod target - ac.heading + 540
          = target - ac.heading + 540 + 360 * ((-⌊target / 360⌋ : ℤ):ℚ) by
        unfold posMod; push_cast; ring,
      posMod_shift]
  simp only [computeTurn, hto, hd_eq]

/-- One call to `computeTurn` never moves the heading further (in angular
distance) than the target is. -/
lemma computeTurn_angDist_le (ac : Aircraft) (t dt : ℚ) (p : Profile)
    (hf0 : 0 ≤ ac.heading) (hf1 : ac.heading < 360)
    (ht0 : -360 < t) (ht1 : t < 360)
    (hM : 0 ≤ jsOr p.turnRateDegPerSec 3 * dt) :
    angDist (computeTurn ac t dt p) ac.heading ≤ angDist t ac.heading := by
  obtain ⟨hd1, hd2, k, hk⟩ := signedDiff_spec ac.heading t
  have habs : angDist t ac.heading = |posMod (t - ac.heading + 540) - 180| :=
    angDist_eq_signedDiff ac.heading t
  rw [computeTurn_eq' ac t dt p hf1 ht0 ht1]
  revert hd1 hd2 hk habs
  generalize posMod (t - ac.heading + 540) - 180 = d
  intro hd1 hd2 hk habs
  rw [habs]
  split_ifs with hle
  · rw [angDist_posMod_left]
    exact le_of_eq habs
  · have hlt : jsOr p.turnRateDegPerSec 3 * dt < |d| := not_le.1 hle
    have hdabs : |d| ≤ 180 := abs_le.2 ⟨hd1, hd2.le⟩
    have hdne : d ≠ 0 := by
      intro h0
      rw [h0, abs_zero] at hlt
      exact absurd hlt (not_lt.2 hM)
    rcases lt_or_gt_of_ne hdne with hneg | hpos
    · rw [sgn_of_neg hneg,
        jsRem_eq_posMod (by nlinarith),
        show ac.heading + -1 * (jsOr p.turnRateDegPerSec 3 * dt) + 360
            = ac.heading + -1 * (jsOr p.turnRateDegPerSec 3 * dt) + 360 * ((1:ℤ):ℚ) by
          push_cast; ring,
        posMod_shift, angDist_posMod_left,
        angDist_of_congr _ _ (-1 * (jsOr p.turnRateDegPerSec 3 * dt)) 0
          (by linarith) (by linarith) (by push_cast; ring)]
      rw [abs_of_nonpos (by linarith)]
      linarith
    · rw [sgn_of_pos hpos,
        jsRem_eq_posMod (by nlinarith),
        show ac.heading + 1 * (jsOr p.turnRateDegPerSec 3 * dt) + 360
            = ac.heading + 1 * (jsOr p.turnRateDegPerSec 3 * dt) + 360 * ((1:ℤ):ℚ) by
          push_cast; ring,
        posMod_shift, angDist_posMod_left,
        angDist_of_congr _ _ (1 * (jsOr p.turnRateDegPerSec 3 * dt)) 0
          (by linarith) (by linarith) (by push_cast; ring)]
      rw [abs_of_nonneg (by linarith)]
      linarith

/-- The guarded branch of `HypersonicAircraft.applyCommand`. -/
lemma hyperBranch (ac : Aircraft) (h : ℚ) (hsp : ac.speedKts > 660)
    (hdiff : |jsRem (h - ac.heading + 540) 360 - 180| > 30) :
    Hypersonic.applyCommand ac (.set_heading h)
      = ({ ac with
            target.heading := jsRem (ac.heading + (if h > ac.heading then 30 else -30)) 360,
            state := .turning_limited },
         { accepted := true, note := some .vghsLimit }) := by
  simp only [Hypersonic.applyCommand]
  rw [if_pos ⟨hsp, hdiff⟩]

/-- The clamped hypersonic target is exactly 30° of angular distance from the
current heading. -/
lemma hyperTarget_angDist (ac : Aircraft) (c : Prop) [Decidable c]
    (hf0 : 0 ≤ ac.heading) (hf1 : ac.heading < 360) :
    angDist (jsRem (ac.heading + (if c then 30 else -30)) 360) ac.heading = 30 := by
  split_ifs with hc
  · rw [jsRem_eq_posMod (by linarith), angDist_posMod_left,
      angDist_of_congr _ _ 30 0 (by norm_num) (by norm_num) (by push_cast; ring)]
    norm_num
  · rw [jsRem_small (by linarith) (by linarith),
      angDist_of_congr _ _ (-30) 0 (by norm_num) (by norm_num) (by push_cast; ring)]
    norm_num

/-! ### Radar tracking lemmas -/

lemma mapSet_same (m : ℚ → Option RTrack) (k : ℚ) (v : RTrack) :
    mapSet m k v k = some v := by
  unfold mapSet
  rw [if_pos rfl]

lemma mapSet_other (m : ℚ → Option RTrack) (k : ℚ) (v : RTrack) (i : ℚ)
    (h : i ≠ k) : mapSet m k v i = m i := by
  unfold mapSet
  rw [if_neg h]

lemma mapDel_same (m : ℚ → Option RTrack) (k : ℚ) : mapDel m k k = none := by
  unfold mapDel
  rw [if_pos rfl]

lemma mapDel_other (m : ℚ → Option RTrack) (k : ℚ) (i : ℚ) (h : i ≠ k) :
    mapDel m k i = m i := by
  unfold mapDel
  rw [if_neg h]

lemma detectLoop_no_write {matan2 : ℚ → ℚ → ℚ} {msqrt : ℚ → ℚ}
    {rx ry range sweepAngle t : ℚ} {rand : ℕ → ℚ}
    (l : List RAC) (m : ℚ → Option RTrack) (k : ℕ) (i : ℚ)
    (hi : ∀ b ∈ l, b.id ≠ i) :
    detectLoop matan2 msqrt rx ry range sweepAngle t rand l m k i = m i := by
  induction l generalizing m k with
  | nil => rfl
  | cons a rest ih =>
      have ha : i ≠ a.id := fun he => hi a (List.mem_cons_self a rest) he.symm
      have hrest : ∀ b ∈ rest, b.id ≠ i := fun b hb => hi b (List.mem_cons_of_mem a hb)
      simp only [detectLoop]
      split_ifs with h1 h2 h3
      · rw [ih _ _ hrest, mapSet_other _ _ _ _ ha]
      · exact ih _ _ hrest
      · exact ih _ _ hrest
      · rw [ih _ _ hrest, mapDel_other _ _ _ ha]

lemma detectLoop_pres {matan2 : ℚ → ℚ → ℚ} {msqrt : ℚ → ℚ}
    {rx ry range sweepAngle t : ℚ} {rand : ℕ → ℚ}
    (l : List RAC) (m : ℚ → Option RTrack) (k : ℕ) (P : RTrack → Prop)
    (hm : ∀ key tr, m key = some tr → P tr)
    (hnew : ∀ a : RAC, P { state := a, lastSeen := t }) :
    ∀ key tr,
      detectLoop matan2 msqrt rx ry range sweepAngle t rand l m k key = some tr →
        P tr := by
  induction l generalizing m k with
  | nil => exact hm
  | cons a rest ih =>
      intro key tr
      simp only [detectLoop]
      split_ifs with h1 h2 h3
      · refine ih _ _ ?_ key tr
        intro key' tr' h'
        unfold mapSet at h'
        split_ifs at h' with hk
        · exact (Option.some.inj h') ▸ hnew a
        · exact hm key' tr' h'
      · exact ih _ _ hm key tr
      · exact ih _ _ hm key tr
      · refine ih _ _ ?_ key tr
        intro key' tr' h'
        unfold mapDel at h'
        split_ifs at h' with hk
        exact hm key' tr' h'

lemma detectLoop_append {matan2 : ℚ → ℚ → ℚ} {msqrt : ℚ → ℚ}
    {rx ry range sweepAngle t : ℚ} {rand : ℕ → ℚ}
    (l1 l2 : List RAC) (m : ℚ → Option RTrack) (k : ℕ) :
    detectLoop matan2 msqrt rx ry range sweepAngle t rand (l1 ++ l2) m k
      = detectLoop matan2 msqrt rx ry range sweepAngle t rand l2
          (detectLoop matan2 msqrt rx ry range sweepAngle t rand l1 m k)
          (k + l1.countP (beamHit matan2 msqrt rx ry range sweepAngle)) := by
  induction l1 generalizing m k with
  | nil => simp [detectLoop]
  | cons a rest ih =>
      simp only [List.cons_append, detectLoop, List.append_eq]
      split_ifs with h1 h2 h3
      · have hba : beamHit matan2 msqrt rx ry range sweepAngle a = true := by
          simp [beamHit, h1, h2]
        have hidx : k + List.countP (beamHit matan2 msqrt rx ry range sweepAngle) (a :: rest)
            = (k + 1) + List.countP (beamHit matan2 msqrt rx ry range sweepAngle) rest := by
          simp only [List.countP_cons, hba, if_true, eq_self_iff_true]
          omega
        rw [hidx, ih]
      · have hba : beamHit matan2 msqrt rx ry range sweepAngle a = true := by
          simp [beamHit, h1, h2]
        have hidx : k + List.countP (beamHit matan2 msqrt rx ry range sweepAngle) (a :: rest)
            = (k + 1) + List.countP (beamHit matan2 msqrt rx ry range sweepAngle) rest := by
          simp only [List.countP_cons, hba, if_true, eq_self_iff_true]
          omega
        rw [hidx, ih]
      · have hba : beamHit matan2 msqrt rx ry range sweepAngle a = false := by
          simp [beamHit, h1, h2]
        have hidx : k + List.countP (beamHit matan2 msqrt rx ry range sweepAngle) (a :: rest)
            = k + List.countP (beamHit matan2 msqrt rx ry range sweepAngle) rest := by
          simp [List.countP_cons, hba]
        rw [hidx, ih]
      · have hba : beamHit matan2 msqrt rx ry range sweepAngle a = false := by
          simp [beamHit, h1]
        have hidx : k + List.countP (beamHit matan2 msqrt rx ry range sweepAngle) (a :: rest)
            = k + List.countP (beamHit matan2 msqrt rx ry range sweepAngle) rest := by
          simp [List.countP_cons, hba]
        rw [hidx, ih]

/-- One step of the detection loop, phrased over the named radar
quantities. -/
lemma detectLoop_cons {matan2 : ℚ → ℚ → ℚ} {msqrt : ℚ → ℚ}
    {rx ry range sweepAngle t : ℚ} {rand : ℕ → ℚ}
    (a : RAC) (rest : List RAC) (m : ℚ → Option RTrack) (k : ℕ) :
    detectLoop matan2 msqrt rx ry range sweepAngle t rand (a :: rest) m k
      = if acDistance msqrt rx ry a ≤ range then
          (if acAngleDiff matan2 rx ry sweepAngle a ≤ 30 / 2 then
            (if rand k < detectProbOf msqrt rx ry range a then
              detectLoop matan2 msqrt rx ry range sweepAngle t rand rest
                (mapSet m a.id { state := a, lastSeen := t }) (k + 1)
            else detectLoop matan2 msqrt rx ry range sweepAngle t rand rest m (k + 1))
          else detectLoop matan2 msqrt rx ry range sweepAngle t rand rest m k)
        else detectLoop matan2 msqrt rx ry range sweepAngle t rand rest
          (mapDel m a.id) k := rfl

/-! ### Conflict-detector lemmas -/

lemma velocity_fst (msin mcos : ℚ → ℚ) (ac : Aircraft) :
    (velocityKmPerSec msin mcos ac).1 = msin ac.heading * (ac.speedKts * KNOTS_TO_KMS) := rfl

lemma velocity_snd (msin mcos : ℚ → ℚ) (ac : Aircraft) :
    (velocityKmPerSec msin mcos ac).2 = mcos ac.heading * (ac.speedKts * KNOTS_TO_KMS) := rfl

/-- `pairCheck` written over the named geometric quantities. -/
lemma pairCheck_eq (msin mcos msqrt : ℚ → ℚ) (L lat vert : ℚ) (a b : Aircraft) :
    pairCheck msin mcos msqrt L lat vert a b =
      if (relVel msin mcos a b).1 * (relVel msin mcos a b).1
          + (relVel msin mcos a b).2 * (relVel msin mcos a b).2 = 0 then none
      else if tcaOf msin mcos a b < 0 ∨ tcaOf msin mcos a b > L then none
      else if cpaDist msin mcos msqrt a b < lat ∧ |a.altitudeFt - b.altitudeFt| < vert
      then some { a := a, b := b, ttc := tcaOf msin mcos a b,
                  distAtCPA := cpaDist msin mcos msqrt a b }
      else none := rfl

lemma pairCheck_isSome_iff (msin mcos msqrt : ℚ → ℚ) (L lat vert : ℚ)
    (a b : Aircraft) :
    (pairCheck msin mcos msqrt L lat vert a b).isSome = true ↔
      conflictCond msin mcos msqrt L lat vert a b := by
  rw [pairCheck_eq]
  unfold conflictCond
  split_ifs with h1 h2 h3
  · simp only [Option.isSome_none, Bool.false_eq_true, false_iff]
    rintro ⟨hne, -⟩
    exact hne (mul_self_add_mul_self_eq_zero.1 h1)
  · simp only [Option.isSome_none, Bool.false_eq_true, false_iff]
    rintro ⟨-, h0, hL, -⟩
    rcases h2 with h2 | h2 <;> linarith
  · simp only [Option.isSome_some, true_iff]
    push_neg at h2
    exact ⟨fun ⟨e1, e2⟩ => h1 (by rw [e1, e2]; ring), h2.1, h2.2, h3.1, h3.2⟩
  · simp only [Option.isSome_none, Bool.false_eq_true, false_iff]
    rintro ⟨-, -, -, h4, h5⟩
    exact h3 ⟨h4, h5⟩

lemma tcaOf_symm (msin mcos : ℚ → ℚ) (a b : Aircraft) :
    tcaOf msin mcos b a = tcaOf msin mcos a b := by
  simp only [tcaOf, relPos, relVel, velocity_fst, velocity_snd]
  ring_nf

lemma cpaDist_symm (msin mcos msqrt : ℚ → ℚ) (a b : Aircraft) :
    cpaDist msin mcos msqrt b a = cpaDist msin mcos msqrt a b := by
  simp only [cpaDist, tcaOf_symm]
  congr 1
  simp only [relPos, relVel, velocity_fst, velocity_snd]
  ring

lemma conflictCond_symm (msin mcos msqrt : ℚ → ℚ) (L lat vert : ℚ)
    (a b : Aircraft) :
    conflictCond msin mcos msqrt L lat vert a b ↔
      conflictCond msin mcos msqrt L lat vert b a := by
  have hn1 : (relVel msin mcos b a).1 = -(relVel msin mcos a b).1 := by
    simp only [relVel, velocity_fst]
    ring
  have hn2 : (relVel msin mcos b a).2 = -(relVel msin mcos a b).2 := by
    simp only [relVel, velocity_snd]
    ring
  unfold conflictCond
  rw [tcaOf_symm, cpaDist_symm, abs_sub_comm b.altitudeFt, hn1, hn2,
    neg_eq_zero, neg_eq_zero]

lemma mem_detectConflicts (msin mcos msqrt : ℚ → ℚ) (L lat vert : ℚ)
    (l : List Aircraft) (c : Conflict) :
    c ∈ detectConflicts msin mcos msqrt L lat vert l ↔
      ∃ i j : ℕ, i < j ∧ ∃ a b : Aircraft,
        l.get? i = some a ∧ l.get? j = some b ∧
        pairCheck msin mcos msqrt L lat vert a b = some c := by
  induction l with
  | nil => simp [detectConflicts]
  | cons x rest ih =>
      simp only [detectConflicts, List.mem_append, List.mem_filterMap, ih]
      constructor
      · rintro (⟨b, hb, hpc⟩ | ⟨i, j, hij, a, b, ha, hb, hpc⟩)
        · obtain ⟨jj, hjj⟩ := List.mem_iff_get?.1 hb
          exact ⟨0, jj + 1, Nat.succ_pos jj, x, b, rfl, by simpa using hjj, hpc⟩
        · exact ⟨i + 1, j + 1, by omega, a, b, by simpa using ha, by simpa using hb, hpc⟩
      · rintro ⟨i, j, hij, a, b, ha, hb, hpc⟩
        cases i with
        | zero =>
            cases j with
            | zero => omega
            | succ jj =>
                left
                have hax : x = a := by
                  rw [List.get?_cons_zero] at ha
                  exact Option.some.inj ha
                refine ⟨b, List.get?_mem (by simpa using hb), ?_⟩
                rw [hax]
                exact hpc
        | succ ii =>
            cases j with
            | zero => omega
            | succ jj =>
                right
                exact ⟨ii, jj, by omega, a, b, by simpa using ha, by simpa using hb, hpc⟩

/-! ### Rate-limited approach lemmas (speed and altitude control) -/

lemma computeSpeedChange_some (ac : Aircraft) (ts dt : ℚ) (p : Profile) :
    computeSpeedChange ac (some ts) dt p = approach p.accel p.decel dt ts ac.speedKts := rfl

lemma computeAltitudeChange_some (ac : Aircraft) (ta dt : ℚ) (p : Profile) :
    computeAltitudeChange ac (some ta) dt p
      = approach (jsOr p.maxClimb 2000 / 60) (jsOr p.maxClimb 2000 / 60) dt ta ac.altitudeFt := by
  simp [computeAltitudeChange, approach]

lemma approach_self (a d dt s : ℚ) : approach a d dt s s = s := by
  simp [approach, sgn]

lemma abs_approach_sub_le {a d dt : ℚ} (ha : 0 ≤ a) (hd : 0 ≤ d) (hdt : 0 ≤ dt)
    (T s : ℚ) :
    |approach a d dt T s - s| ≤ (if 0 < T - s then a else d) * dt := by
  simp only [approach]
  rcases lt_trichotomy (T - s) 0 with h | h | h
  · rw [if_neg (by linarith), sgn_of_neg h]
    have hmin : (0:ℚ) ≤ min |T - s| (d * dt) :=
      le_min (abs_nonneg _) (mul_nonneg hd hdt)
    rw [show s + -1 * min |T - s| (d * dt) - s = -(min |T - s| (d * dt)) by ring,
      abs_neg, abs_of_nonneg hmin]
    exact min_le_right _ _
  · rw [if_neg (by rw [h]; exact lt_irrefl 0), h]
    simp [sgn]
    exact mul_nonneg hd hdt
  · rw [if_pos h, sgn_of_pos h]
    have hmin : (0:ℚ) ≤ min |T - s| (a * dt) :=
      le_min (abs_nonneg _) (mul_nonneg ha hdt)
    rw [show s + 1 * min |T - s| (a * dt) - s = min |T - s| (a * dt) by ring,
      abs_of_nonneg hmin]
    exact min_le_right _ _

lemma sub_min_eq_max (x y : ℚ) : x - min x y = max (x - y) 0 := by
  rcases le_total x y with h | h
  · rw [min_eq_left h, max_eq_right (by linarith), sub_self]
  · rw [min_eq_right h, max_eq_left (by linarith)]

lemma max_sub_max (x y : ℚ) (hy : 0 ≤ y) : max (max x 0 - y) 0 = max (x - y) 0 := by
  rcases le_total x 0 with h | h
  · rw [max_eq_right h, zero_sub, max_eq_right (by linarith),
      max_eq_right (by linarith)]
  · rw [max_eq_left h]

lemma approach_up {a dt : ℚ} (ha : 0 ≤ a * dt) {T s : ℚ} (h : s ≤ T) (d : ℚ) :
    T - approach a d dt T s = max (T - s - a * dt) 0 := by
  rcases eq_or_lt_of_le h with he | hlt
  · rw [← he, approach_self, sub_self, max_eq_right (by linarith)]
  · simp only [approach]
    rw [if_pos (by linarith : (0:ℚ) < T - s), sgn_of_pos (by linarith), abs_of_pos (by linarith),
      show T - (s + 1 * min (T - s) (a * dt)) = (T - s) - min (T - s) (a * dt) by ring,
      sub_min_eq_max]

lemma approach_down {d dt : ℚ} (hd : 0 ≤ d * dt) {T s : ℚ} (h : T ≤ s) (a : ℚ) :
    approach a d dt T s - T = max (s - T - d * dt) 0 := by
  rcases eq_or_lt_of_le h with he | hlt
  · rw [he, approach_self, sub_self, max_eq_right (by linarith)]
  · simp only [approach]
    rw [if_neg (by linarith : ¬(0:ℚ) < T - s), sgn_of_neg (by linarith), abs_of_neg (by linarith),
      show s + -1 * min (-(T - s)) (d * dt) - T = (s - T) - min (s - T) (d * dt) by
        rw [neg_sub]; ring,
      sub_min_eq_max]

lemma approach_iter_up {a dt : ℚ} (ha : 0 ≤ a * dt) {T s : ℚ} (h : s ≤ T) (d : ℚ)
    (n : ℕ) :
    T - (approach a d dt T)^[n] s = max (T - s - n * (a * dt)) 0 := by
  induction n with
  | zero => simp [max_eq_left (by linarith : (0:ℚ) ≤ T - s)]
  | succ n ih =>
      have hsn : (approach a d dt T)^[n] s ≤ T := by
        have := le_max_right (T - s - n * (a * dt)) 0
        linarith [ih]
      rw [Function.iterate_succ_apply', approach_up ha hsn d, ih, max_sub_max _ _ ha]
      congr 1
      push_cast
      ring

lemma approach_iter_down {d dt : ℚ} (hd : 0 ≤ d * dt) {T s : ℚ} (h : T ≤ s) (a : ℚ)
    (n : ℕ) :
    (approach a d dt T)^[n] s - T = max (s - T - n * (d * dt)) 0 := by
  induction n with
  | zero => simp [max_eq_left (by linarith : (0:ℚ) ≤ s - T)]
  | succ n ih =>
      have hsn : T ≤ (approach a d dt T)^[n] s := by
        have := le_max_right (s - T - n * (d * dt)) 0
        linarith [ih]
      rw [Function.iterate_succ_apply', approach_down hd hsn a, ih, max_sub_max _ _ hd]
      congr 1
      push_cast
      ring

lemma approach_converges {a d dt : ℚ} (ha : 0 < a * dt) (hd : 0 < d * dt)
    (T s : ℚ) : ∃ n : ℕ, (approach a d dt T)^[n] s = T := by
  rcases le_total s T with h | h
  · refine ⟨⌈(T - s) / (a * dt)⌉₊, ?_⟩
    have h2 : T - s ≤ (⌈(T - s) / (a * dt)⌉₊ : ℚ) * (a * dt) := by
      have h3 := Nat.le_ceil ((T - s) / (a * dt))
      rw [div_le_iff₀ ha] at h3
      exact h3
    have h1 := approach_iter_up ha.le h d ⌈(T - s) / (a * dt)⌉₊
    rw [max_eq_right (by linarith)] at h1
    linarith
  · refine ⟨⌈(s - T) / (d * dt)⌉₊, ?_⟩
    have h2 : s - T ≤ (⌈(s - T) / (d * dt)⌉₊ : ℚ) * (d * dt) := by
      have h3 := Nat.le_ceil ((s - T) / (d * dt))
      rw [div_le_iff₀ hd] at h3
      exact h3
    have h1 := approach_iter_down hd.le h a ⌈(s - T) / (d * dt)⌉₊
    rw [max_eq_right (by linarith)] at h1
    linarith

lemma stepSpeed_iter_speed (ts dt : ℚ) (p : Profile) (ac : Aircraft) (n : ℕ) :
    ((stepSpeed ts dt p)^[n] ac).speedKts
      = (approach p.accel p.decel dt ts)^[n] ac.speedKts := by
  induction n with
  | zero => rfl
  | succ n ih =>
      rw [Function.iterate_succ_apply', Function.iterate_succ_apply', ← ih]
      rfl

lemma stepAlt_iter_alt (ta dt : ℚ) (p : Profile) (ac : Aircraft) (n : ℕ) :
    ((stepAlt ta dt p)^[n] ac).altitudeFt
      = (approach (jsOr p.maxClimb 2000 / 60) (jsOr p.maxClimb 2000 / 60) dt ta)^[n]
          ac.altitudeFt := by
  induction n with
  | zero => rfl
  | succ n ih =>
      rw [Function.iterate_succ_apply', Function.iterate_succ_apply', ← ih]
      exact computeAltitudeChange_some _ _ _ _

/-- **C2.** `computeTurn` with signed difference
`d = ((target - current + 540) mod 360) - 180` snaps to the (already
normalised) target heading when `|d| ≤ turnRate·dt` and otherwise moves the
current heading by `sgn d · turnRate·dt`, wrapped into `[0, 360)`; the
post-turn heading changes by at most `turnRate·dt` of angular distance and
never overshoots: its angular distance to the target is exactly
`max (|d| - turnRate·dt) 0`. -/
theorem computeTurn_correct (ac : Aircraft) (target dt : ℚ) (p : Profile)
    (hf0 : 0 ≤ ac.heading) (hf1 : ac.heading < 360)
    (ht0 : 0 ≤ target) (ht1 : target < 360)
    (hr : 0 < p.turnRateDegPerSec) (hdt : 0 ≤ dt) :
    (|posMod (target - ac.heading + 540) - 180| ≤ p.turnRateDegPerSec * dt →
        computeTurn ac target dt p = target) ∧
    (p.turnRateDegPerSec * dt < |posMod (target - ac.heading + 540) - 180| →
        computeTurn ac target dt p
          = posMod (ac.heading + sgn (posMod (target - ac.heading + 540) - 180)
              * (p.turnRateDegPerSec * dt))) ∧
    angDist (computeTurn ac target dt p) ac.heading ≤ p.turnRateDegPerSec * dt ∧
    angDist (computeTurn ac target dt p) target
      = max (|posMod (target - ac.heading + 540) - 180| - p.turnRateDegPerSec * dt) 0 := by
  obtain ⟨hd1, hd2, k, hk⟩ := signedDiff_spec ac.heading target
  have hceq := computeTurn_eq ac target dt p hf1 ht0 ht1 (ne_of_gt hr)
  have hm0 : (0:ℚ) ≤ p.turnRateDegPerSec * dt := mul_nonneg hr.le hdt
  revert hd1 hd2 hk hceq
  generalize posMod (target - ac.heading + 540) - 180 = d
  intro hd1 hd2 hk hceq
  rcases le_or_lt |d| (p.turnRateDegPerSec * dt) with hle | hlt
  · have hres : computeTurn ac target dt p = target := by rw [hceq, if_pos hle]
    refine ⟨fun _ => hres, fun h' => absurd hle (not_le.2 h'), ?_, ?_⟩
    · rw [hres, angDist_of_congr target ac.heading d k hd1 hd2.le hk]
      exact hle
    · rw [hres, angDist_self]
      exact (max_eq_right (by linarith)).symm
  · have hdabs : |d| ≤ 180 := abs_le.2 ⟨hd1, hd2.le⟩
    have hm180 : p.turnRateDegPerSec * dt ≤ 180 := by linarith
    have hdne : d ≠ 0 := by
      intro h0
      rw [h0, abs_zero] at hlt
      exact absurd hlt (not_lt.2 hm0)
    have hres : computeTurn ac target dt p
        = jsRem (ac.heading + sgn d * (p.turnRateDegPerSec * dt) + 360) 360 := by
      rw [hceq, if_neg (not_le.2 hlt)]
    rcases lt_or_gt_of_ne hdne with hneg | hpos
    · have hsgn : sgn d = -1 := sgn_of_neg hneg
      have habs : |d| = -d := abs_of_neg hneg
      have hres2 : computeTurn ac target dt p
          = posMod (ac.heading + sgn d * (p.turnRateDegPerSec * dt)) := by
        rw [hres, jsRem_eq_posMod (by rw [hsgn]; linarith),
          show ac.heading + sgn d * (p.turnRateDegPerSec * dt) + 360
              = ac.heading + sgn d * (p.turnRateDegPerSec * dt) + 360 * ((1:ℤ):ℚ) by
            push_cast; ring,
          posMod_shift]
      refine ⟨fun h' => absurd h' (not_le.2 hlt), fun _ => hres2, ?_, ?_⟩
      · rw [hres2, angDist_posMod_left,
          angDist_of_congr _ _ (sgn d * (p.turnRateDegPerSec * dt)) 0
            (by rw [hsgn]; linarith) (by rw [hsgn]; linarith)
            (by push_cast; ring), hsgn]
        rw [abs_of_nonpos (by linarith)]
        linarith
      · rw [hres2, angDist_posMod_left,
          angDist_of_congr _ _ (sgn d * (p.turnRateDegPerSec * dt) - d) (-k)
            (by rw [hsgn]; linarith) (by rw [hsgn]; linarith)
            (by push_cast; linarith), hsgn]
        rw [abs_of_nonneg (by rw [habs] at hlt; linarith), habs,
          max_eq_left (by rw [habs] at hlt; linarith)]
        ring
    · have hsgn : sgn d = 1 := sgn_of_pos hpos
      have habs : |d| = d := abs_of_pos hpos
      have hres2 : computeTurn ac target dt p
          = posMod (ac.heading + sgn d * (p.turnRateDegPerSec * dt)) := by
        rw [hres, jsRem_eq_posMod (by rw [hsgn]; linarith),
          show ac.heading + sgn d * (p.turnRateDegPerSec * dt) + 360
              = ac.heading + sgn d * (p.turnRateDegPerSec * dt) + 360 * ((1:ℤ):ℚ) by
            push_cast; ring,
          posMod_shift]
      refine ⟨fun h' => absurd h' (not_le.2 hlt), fun _ => hres2, ?_, ?_⟩
      · rw [hres2, angDist_posMod_left,
          angDist_of_congr _ _ (sgn d * (p.turnRateDegPerSec * dt)) 0
            (by rw [hsgn]; linarith) (by rw [hsgn]; linarith)
            (by push_cast; ring), hsgn]
        rw [abs_of_nonneg (by linarith)]
        linarith
      · rw [hres2, angDist_posMod_left,
          angDist_of_congr _ _ (sgn d * (p.turnRateDegPerSec * dt) - d) (-k)
            (by rw [hsgn]; linarith) (by rw [hsgn]; linarith)
            (by push_cast; linarith), hsgn]
        rw [abs_of_nonpos (by rw [habs] at hlt; linarith), habs,
          max_eq_left (by rw [habs] at hlt; linarith)]
        ring

/-- Witness for C2: a generic aircraft at heading 0 turning towards 090 with
`dt = 1` moves 3°, within the per-tick bound. -/
theorem computeTurn_correct_witness :
    computeTurn sampleAC 90 1 genericProfile = 3 ∧
    angDist (computeTurn sampleAC 90 1 genericProfile) sampleAC.heading
      ≤ genericProfile.turnRateDegPerSec * 1 :=
  ⟨by norm_num [computeTurn, sampleAC, genericProfile, jsRem, jsOr, rtrunc, sgn],
   (computeTurn_correct sampleAC 90 1 genericProfile (by norm_num [sampleAC])
      (by norm_num [sampleAC]) (by norm_num) (by norm_num)
      (by norm_num [genericProfile]) (by norm_num)).2.2.1⟩

/-- **C3.** `computeSpeedChange` and `computeAltitudeChange` move the current
value by `sign(delta)·min(|delta|, rate·dt)` with `rate` = accel above /
decel below for speed and `maxClimb/60` in both directions for altitude;
each tick changes the value by at most `rate·dt`, the target is a fixed
point, and for `dt > 0` iterating the tick reaches the target exactly. -/
theorem speedAltitudeChange_correct (ac : Aircraft) (ts ta dt : ℚ) (p : Profile)
    (hacc : 0 < p.accel) (hdec : 0 < p.decel) (hclimb : 0 < p.maxClimb)
    (hdt : 0 ≤ dt) :
    computeSpeedChange ac (some ts) dt p
      = ac.speedKts + sgn (ts - ac.speedKts)
          * min |ts - ac.speedKts|
              ((if 0 < ts - ac.speedKts then p.accel else p.decel) * dt) ∧
    computeAltitudeChange ac (some ta) dt p
      = ac.altitudeFt + sgn (ta - ac.altitudeFt)
          * min |ta - ac.altitudeFt| (p.maxClimb / 60 * dt) ∧
    |computeSpeedChange ac (some ts) dt p - ac.speedKts|
      ≤ (if 0 < ts - ac.speedKts then p.accel else p.decel) * dt ∧
    |computeAltitudeChange ac (some ta) dt p - ac.altitudeFt|
      ≤ p.maxClimb / 60 * dt ∧
    computeSpeedChange ac (some ac.speedKts) dt p = ac.speedKts ∧
    computeAltitudeChange ac (some ac.altitudeFt) dt p = ac.altitudeFt ∧
    (0 < dt → ∃ n : ℕ, ((stepSpeed ts dt p)^[n] ac).speedKts = ts) ∧
    (0 < dt → ∃ n : ℕ, ((stepAlt ta dt p)^[n] ac).altitudeFt = ta) := by
  have hjs : jsOr p.maxClimb 2000 = p.maxClimb := jsOr_of_ne hclimb.ne'
  refine ⟨rfl, ?_, ?_, ?_, ?_, ?_, ?_, ?_⟩
  · rw [computeAltitudeChange_some, hjs]
    simp only [approach, ite_self]
  · exact abs_approach_sub_le hacc.le hdec.le hdt ts ac.speedKts
  · rw [computeAltitudeChange_some, hjs]
    have h := abs_approach_sub_le (a := p.maxClimb / 60) (d := p.maxClimb / 60)
      (div_nonneg hclimb.le (by norm_num)) (div_nonneg hclimb.le (by norm_num))
      hdt ta ac.altitudeFt
    rwa [ite_self] at h
  · rw [computeSpeedChange_some, approach_self]
  · rw [computeAltitudeChange_some, approach_self]
  · intro hdt'
    obtain ⟨n, hn⟩ := approach_converges (mul_pos hacc hdt') (mul_pos hdec hdt')
      ts ac.speedKts
    exact ⟨n, by rw [stepSpeed_iter_speed]; exact hn⟩
  · intro hdt'
    have hpos : 0 < jsOr p.maxClimb 2000 / 60 * dt := by
      rw [hjs]
      exact mul_pos (div_pos hclimb (by norm_num)) hdt'
    obtain ⟨n, hn⟩ := approach_converges hpos hpos ta ac.altitudeFt
    exact ⟨n, by rw [stepAlt_iter_alt]; exact hn⟩

/-- Witness for C3: the sample aircraft accelerating from 250 to 300 kts and
climbing to 12000 ft with the generic profile. -/
theorem speedAltitudeChange_correct_witness :
    computeSpeedChange sampleAC (some sampleAC.speedKts) 1 genericProfile
        = sampleAC.speedKts ∧
    (∃ n : ℕ, ((stepSpeed 300 1 genericProfile)^[n] sampleAC).speedKts = 300) ∧
    (∃ n : ℕ, ((stepAlt 12000 1 genericProfile)^[n] sampleAC).altitudeFt = 12000) := by
  have h := speedAltitudeChange_correct sampleAC 300 12000 1 genericProfile
    (by norm_num [genericProfile]) (by norm_num [genericProfile])
    (by norm_num [genericProfile]) (by norm_num)
  exact ⟨h.2.2.2.2.1, h.2.2.2.2.2.2.1 (by norm_num), h.2.2.2.2.2.2.2 (by norm_num)⟩

/-- **C4.** `integratePosition` returns the old position plus the navigational
displacement of the aircraft (x from the sine, y from the cosine of the
bearing, scaled by the speed in km/s and `dt`) plus the wind displacement in
the same convention. -/
theorem integratePosition_correct (msin mcos : ℚ → ℚ) (ac : Aircraft) (dt : ℚ)
    (w : ℚ × ℚ) (hw : 0 ≤ w.2) :
    integratePosition msin mcos ac dt (some w)
      = (ac.posKm.1 + msin ac.heading * (ac.speedKts * KNOTS_TO_KMS) * dt
           + msin w.1 * (w.2 * KNOTS_TO_KMS) * dt,
         ac.posKm.2 + mcos ac.heading * (ac.speedKts * KNOTS_TO_KMS) * dt
           + mcos w.1 * (w.2 * KNOTS_TO_KMS) * dt) := by
  simp only [integratePosition]
  rcases eq_or_lt_of_le hw with h0 | hpos
  · rw [if_neg (by rw [← h0]; exact lt_irrefl 0), ← h0, Prod.mk.injEq]
    constructor <;> ring
  · rw [if_pos hpos, Prod.mk.injEq]
    constructor <;> ring

/-- Witness for C4: concrete trigonometric values, a 10 kt wind, `dt = 2`. -/
theorem integratePosition_correct_witness :
    integratePosition (fun _ => 1) (fun _ => 0) sampleAC 2 (some (90, 10))
      = (520 * KNOTS_TO_KMS, 0) := by
  rw [integratePosition_correct (fun _ => 1) (fun _ => 0) sampleAC 2 (90, 10)
    (by norm_num)]
  show ((0:ℚ) + 1 * (250 * KNOTS_TO_KMS) * 2 + 1 * (10 * KNOTS_TO_KMS) * 2,
    (0:ℚ) + 0 * (250 * KNOTS_TO_KMS) * 2 + 0 * (10 * KNOTS_TO_KMS) * 2)
      = ((520 * KNOTS_TO_KMS : ℚ), (0:ℚ))
  rw [Prod.mk.injEq]
  constructor <;> ring

/-- **C5.** A hypersonic aircraft above 660 kts given a heading command whose
shortest-path change exceeds 30° does not adopt the commanded heading: the
new target heading sits 30° from the current heading, the tag becomes
`turning_limited`, and the result is a partial acceptance (accepted with a
note).  Other command types and changes of at most 30° fall through to the
base behaviour, and an aircraft commanded to turn 90° ends the tick within
30° of its pre-tick heading. -/
theorem hypersonicCommand_correct (ac : Aircraft) (h dt : ℚ)
    (hf0 : 0 ≤ ac.heading) (hf1 : ac.heading < 360)
    (hc0 : 0 ≤ h) (hc1 : h < 360) :
    (ac.speedKts > 660 → 30 < angDist h ac.heading →
      angDist (Hypersonic.applyCommand ac (.set_heading h)).1.target.heading
          ac.heading = 30 ∧
      (Hypersonic.applyCommand ac (.set_heading h)).1.target.heading ≠ h ∧
      (Hypersonic.applyCommand ac (.set_heading h)).1.state = .turning_limited ∧
      (Hypersonic.applyCommand ac (.set_heading h)).2
        = { accepted := true, note := some .vghsLimit }) ∧
    (∀ cmd : PCmd, (∀ hh : ℚ, cmd ≠ .set_heading hh) →
      Hypersonic.applyCommand ac cmd = ac.applyCommand cmd) ∧
    (angDist h ac.heading ≤ 30 →
      Hypersonic.applyCommand ac (.set_heading h) = ac.applyCommand (.set_heading h)) ∧
    (ac.speedKts > 660 → angDist h ac.heading = 90 →
      0 ≤ ac.profile.turnRateDegPerSec → 0 ≤ dt →
      angDist (tickHeading (Hypersonic.applyCommand ac (.set_heading h)).1 dt)
          ac.heading ≤ 30) := by
  have hdiff_eq : |jsRem (h - ac.heading + 540) 360 - 180| = angDist h ac.heading := by
    rw [jsRem_eq_posMod (by linarith), ← angDist_eq_signedDiff]
  refine ⟨?_, ?_, ?_, ?_⟩
  · intro hsp hgt
    have hdiff : |jsRem (h - ac.heading + 540) 360 - 180| > 30 := by
      rw [hdiff_eq]
      exact hgt
    rw [hyperBranch ac h hsp hdiff]
    refine ⟨hyperTarget_angDist ac _ hf0 hf1, ?_, rfl, rfl⟩
    intro heq
    have heq' : jsRem (ac.heading + (if h > ac.heading then 30 else -30)) 360 = h := heq
    have h30 : angDist (jsRem (ac.heading + (if h > ac.heading then 30 else -30)) 360)
        ac.heading = 30 := hyperTarget_angDist ac _ hf0 hf1
    rw [heq'] at h30
    linarith
  · intro cmd hnot
    cases cmd with
    | set_heading hh => exact absurd rfl (hnot hh)
    | set_altitude a => rfl
    | climb_to a => rfl
    | descend_to a => rfl
    | set_speed s => rfl
    | maintain a => rfl
    | vector x y => rfl
    | hold => rfl
  · intro hle
    simp only [Hypersonic.applyCommand]
    rw [if_neg]
    rintro ⟨-, hgt⟩
    rw [hdiff_eq] at hgt
    linarith
  · intro hsp h90 hrate hdt
    have hdiff : |jsRem (h - ac.heading + 540) 360 - 180| > 30 := by
      rw [hdiff_eq, h90]
      norm_num
    rw [hyperBranch ac h hsp hdiff]
    have hM : 0 ≤ jsOr ac.profile.turnRateDegPerSec 3 * dt := by
      unfold jsOr
      split_ifs
      · linarith
      · exact mul_nonneg hrate hdt
    have hb1 : -360 < jsRem (ac.heading + (if h > ac.heading then 30 else -30)) 360 := by
      split_ifs with hc
      · rw [jsRem_eq_posMod (by linarith)]
        linarith [posMod_nonneg (ac.heading + 30)]
      · rw [jsRem_small (by linarith) (by linarith)]
        linarith
    have hb2 : jsRem (ac.heading + (if h > ac.heading then 30 else -30)) 360 < 360 := by
      split_ifs with hc
      · rw [jsRem_eq_posMod (by linarith)]
        exact posMod_lt _
      · rw [jsRem_small (by linarith) (by linarith)]
        linarith
    exact le_trans
      (computeTurn_angDist_le _ _ dt ac.profile hf0 hf1 hb1 hb2 hM)
      (le_of_eq (hyperTarget_angDist ac (h > ac.heading) hf0 hf1))

/-- Witness for C5: the sample hypersonic aircraft at heading 0, 4000 kts,
commanded to heading 090 (a 90° turn), `dt = 1`. -/
theorem hypersonicCommand_correct_witness :
    angDist (Hypersonic.applyCommand sampleHX (.set_heading 90)).1.target.heading
        sampleHX.heading = 30 ∧
    (Hypersonic.applyCommand sampleHX (.set_heading 90)).1.state = .turning_limited ∧
    (Hypersonic.applyCommand sampleHX (.set_heading 90)).2
      = { accepted := true, note := some .vghsLimit } ∧
    angDist (tickHeading (Hypersonic.applyCommand sampleHX (.set_heading 90)).1 1)
        sampleHX.heading ≤ 30 := by
  have h := hypersonicCommand_correct sampleHX 90 1 (by norm_num [sampleHX])
    (by norm_num [sampleHX]) (by norm_num) (by norm_num)
  have h90 : angDist 90 sampleHX.heading = 90 := by
    rw [angDist_eq_signedDiff]
    have : posMod ((90:ℚ) - sampleHX.heading + 540) = 270 := by
      refine posMod_eq_of 1 (by norm_num) (by norm_num) ?_
      push_cast
      norm_num [sampleHX]
    rw [this]
    norm_num
  have hA := h.1 (by norm_num [sampleHX]) (by rw [h90]; norm_num)
  exact ⟨hA.1, hA.2.2.1, hA.2.2.2,
    h.2.2.2 (by norm_num [sampleHX]) h90 (by norm_num [sampleHX, hypersonicProfile])
      (by norm_num)⟩

/-- **C10.** The direction of the hypersonic 30° clamp follows the raw
numeric comparison `commanded > current`, not the shortest-turn direction:
at heading 20 commanded to 300 (shortest turn −80°), the clamped target is
50 = 20 + 30, on the opposite side. -/
theorem hypersonicClampNumericDirection (ac : Aircraft) (h : ℚ)
    (hsp : ac.speedKts > 660)
    (hdiff : 30 < |jsRem (h - ac.heading + 540) 360 - 180|) :
    (Hypersonic.applyCommand ac (.set_heading h)).1.target.heading
      = jsRem (ac.heading + (if h > ac.heading then 30 else -30)) 360 ∧
    (Hypersonic.applyCommand { sampleHX with heading := 20 }
        (.set_heading 300)).1.target.heading = 50 ∧
    posMod (300 - 20 + 540) - 180 < 0 := by
  refine ⟨by rw [hyperBranch ac h hsp hdiff], ?_, ?_⟩
  · have hd : |jsRem ((300:ℚ) - ({ sampleHX with heading := 20 } : Aircraft).heading
        + 540) 360 - 180| > 30 := by
      have e1 : jsRem ((300:ℚ) - ({ sampleHX with heading := 20 } : Aircraft).heading
          + 540) 360 = 100 := by
        rw [show ((300:ℚ) - ({ sampleHX with heading := 20 } : Aircraft).heading + 540)
            = 820 by norm_num [sampleHX],
          jsRem_eq_posMod (by norm_num)]
        refine posMod_eq_of 2 (by norm_num) (by norm_num) ?_
        push_cast
        norm_num
      rw [e1]
      norm_num
    rw [hyperBranch _ 300 (by norm_num [sampleHX]) hd]
    rw [show ({ sampleHX with heading := 20 } : Aircraft).heading = 20 from rfl]
    rw [if_pos (by norm_num : (300:ℚ) > 20), jsRem_small (by norm_num) (by norm_num)]
    show (20:ℚ) + 30 = 50
    norm_num
  · have : posMod ((300:ℚ) - 20 + 540) = 100 := by
      refine posMod_eq_of 2 (by norm_num) (by norm_num) ?_
      push_cast
      norm_num
    rw [show ((300:ℚ) - 20 + 540) = 820 by norm_num] at this ⊢
    rw [this]
    norm_num

/-- Witness for C10: the general clamp-direction equation applied at the
concrete heading-20/commanded-300 state. -/
theorem hypersonicClampNumericDirection_witness :
    (Hypersonic.applyCommand { sampleHX with heading := 20 }
        (.set_heading 300)).1.target.heading
      = jsRem (({ sampleHX with heading := 20 } : Aircraft).heading
          + (if (300:ℚ) > ({ sampleHX with heading := 20 } : Aircraft).heading
             then 30 else -30)) 360 :=
  (hypersonicClampNumericDirection { sampleHX with heading := 20 } 300
    (by norm_num [sampleHX])
    (by
      rw [show ((300:ℚ) - ({ sampleHX with heading := 20 } : Aircraft).heading + 540)
          = 820 by norm_num [sampleHX], jsRem_eq_posMod (by norm_num),
        show posMod (820:ℚ) = 100 from posMod_eq_of 2 (by norm_num) (by norm_num)
          (by push_cast; norm_num)]
      norm_num)).1

/-- **C1.** `detectConflicts` flags a pair exactly when its relative velocity
is nonzero, `tca = -(relPos·relVel)/|relVel|²` lies in `[0, lookahead]`, the
predicted planar distance at `tca` is below the lateral threshold, and the
current altitude gap is below the vertical threshold; the condition is
symmetric in the pair, a pair with identical heading and speed is always
skipped, and the output consists of exactly the flagged index pairs `i < j`. -/
theorem detectConflicts_correct (msin mcos msqrt : ℚ → ℚ) (L lat vert : ℚ) :
    (∀ a b : Aircraft,
        (pairCheck msin mcos msqrt L lat vert a b).isSome = true ↔
          conflictCond msin mcos msqrt L lat vert a b) ∧
    (∀ a b : Aircraft, a.heading = b.heading → a.speedKts = b.speedKts →
        pairCheck msin mcos msqrt L lat vert a b = none) ∧
    (∀ a b : Aircraft,
        conflictCond msin mcos msqrt L lat vert a b ↔
          conflictCond msin mcos msqrt L lat vert b a) ∧
    (∀ (l : List Aircraft) (c : Conflict),
        c ∈ detectConflicts msin mcos msqrt L lat vert l ↔
          ∃ i j : ℕ, i < j ∧ ∃ a b : Aircraft,
            l.get? i = some a ∧ l.get? j = some b ∧
            pairCheck msin mcos msqrt L lat vert a b = some c) := by
  refine ⟨pairCheck_isSome_iff msin mcos msqrt L lat vert, ?_,
    conflictCond_symm msin mcos msqrt L lat vert,
    mem_detectConflicts msin mcos msqrt L lat vert⟩
  intro a b hh hs
  rw [pairCheck_eq, if_pos]
  simp only [relVel, velocity_fst, velocity_snd, hh, hs]
  ring

/-- Witness for C1: two aircraft with identical heading and speed are never
flagged, here 10 km apart at the same altitude. -/
theorem detectConflicts_correct_witness :
    pairCheck (fun _ => 0) (fun _ => 1) (fun _ => 0) 300 5 1000 sampleAC
        { sampleAC with posKm := (10, 0) } = none :=
  (detectConflicts_correct (fun _ => 0) (fun _ => 1) (fun _ => 0) 300 5 1000).2.1
    sampleAC { sampleAC with posKm := (10, 0) } rfl rfl

/-- **C6.** `"AC101 H 090"` parses to callsign `AC101` with exactly one
command, a set-heading whose heading parameter is 90. -/
theorem parseRawCommand_heading090 :
    parseRawCommand ['A', 'C', '1', '0', '1', ' ', 'H', ' ', '0', '9', '0']
      = .ok ['A', 'C', '1', '0', '1'] [.set_heading 90] := by decide

/-- A rejected command is a no-op for the chain. -/
lemma chainStep_invalid {cs : List Char} {s : List Aircraft} {c : PCmd}
    (hv : (validateCommand s cs c).isSome = true) : chainStep cs s c = s := by
  unfold chainStep
  rcases hval : validateCommand s cs c with _ | e
  · rw [hval] at hv
    simp at hv
  · rfl

lemma runChain_append (sim : List Aircraft) (cs : List Char) (l1 l2 : List PCmd) :
    runChain sim cs (l1 ++ l2) = runChain (runChain sim cs l1) cs l2 :=
  List.foldl_append _ _ _ _

lemma runChain_cons (sim : List Aircraft) (cs : List Char) (c : PCmd)
    (l : List PCmd) :
    runChain sim cs (c :: l) = runChain (chainStep cs sim c) cs l := rfl

/-- **C7.** In a successfully parsed chain, a command rejected by
`validateCommand` is not dispatched — it leaves the registry exactly as it
was — and the remaining commands of the chain are still validated and
applied: the run of the whole chain equals the run of the chain without the
rejected command. -/
theorem processCommand_skips_invalid (raw : List Char) (sim : List Aircraft)
    (cs : List Char) (pre post : List PCmd) (c : PCmd)
    (hp : parseRawCommand raw = .ok cs (pre ++ c :: post))
    (hv : (validateCommand (runChain sim cs pre) cs c).isSome = true) :
    processCommand raw sim = runChain sim cs (pre ++ post) ∧
    runChain sim cs (pre ++ [c]) = runChain sim cs pre := by
  have key : runChain sim cs (pre ++ c :: post) = runChain sim cs (pre ++ post) := by
    rw [runChain_append, runChain_append, runChain_cons, chainStep_invalid hv]
  refine ⟨?_, ?_⟩
  · simp only [processCommand, hp]
    exact key
  · rw [runChain_append, runChain_cons, chainStep_invalid hv]
    rfl

/-- Witness for C7: `"AC101 S 999999 H 090"` over a one-aircraft registry —
the overspeed clearance is rejected, the heading command still runs. -/
theorem processCommand_skips_invalid_witness :
    processCommand
        ['A', 'C', '1', '0', '1', ' ', 'S', ' ', '9', '9', '9', '9', '9', '9',
         ' ', 'H', ' ', '0', '9', '0'] [sampleAC]
      = runChain [sampleAC] ['A', 'C', '1', '0', '1'] [.set_heading 90] :=
  (processCommand_skips_invalid _ [sampleAC] ['A', 'C', '1', '0', '1'] []
    [.set_heading 90] (.set_speed 999999) (by decide)
    (by
      show (validateCommand [sampleAC] ['A', 'C', '1', '0', '1']
        (.set_speed 999999)).isSome = true
      norm_num [validateCommand, getAircraftByCallsign, callsignMatches,
        sampleAC, genericProfile, List.find?])).1

/-- **C8, counterexample.**  An aircraft 50 km from the radar, dead on the
beam centre (its bearing −90° ≡ 270° equals the sweep angle), with the draw
(0) far below the claimed probability `(1 − d/range) − 0.02`, is nevertheless
not tracked after the call: the JavaScript remainder in the beam test makes
the computed angular difference 360 instead of 0. -/
theorem detectAircraft_claim_counterexample :
    acDistance sqrtAt2500 radarSouthSweep.x radarSouthSweep.y acSouth
        ≤ radarSouthSweep.range ∧
    angDist (atan2South (acSouth.y - radarSouthSweep.y) (acSouth.x - radarSouthSweep.x))
        radarSouthSweep.sweepAngle ≤ 30 / 2 ∧
    randZero 0
      < (1 - acDistance sqrtAt2500 radarSouthSweep.x radarSouthSweep.y acSouth
            / radarSouthSweep.range) - 2 / 100 ∧
    (Radar.detectAircraft atan2South sqrtAt2500 randZero radarSouthSweep [acSouth] 1).trackedTargets
        acSouth.id = none := by
  refine ⟨by norm_num [acDistance, sqrtAt2500, radarSouthSweep, acSouth], ?_, ?_, ?_⟩
  · rw [show atan2South (acSouth.y - radarSouthSweep.y) (acSouth.x - radarSouthSweep.x)
        = -90 from rfl,
      show radarSouthSweep.sweepAngle = 270 from rfl]
    rw [show (-90 : ℚ) = 270 + (-360) by norm_num]
    rw [show (270:ℚ) + (-360) = 270 + 360 * ((-1 : ℤ) : ℚ) by push_cast; ring,
      angDist_shift_left, angDist_self]
    norm_num
  · norm_num [acDistance, sqrtAt2500, radarSouthSweep, acSouth, randZero]
  · show detectLoop atan2South sqrtAt2500 radarSouthSweep.x radarSouthSweep.y
        radarSouthSweep.range radarSouthSweep.sweepAngle 1 randZero [acSouth]
        (pruneTracks radarSouthSweep.trackedTargets 1 (360 / radarSouthSweep.sweepSpeed)) 0
        acSouth.id = none
    simp only [detectLoop]
    rw [if_pos (by norm_num [sqrtAt2500, radarSouthSweep, acSouth] :
          sqrtAt2500 ((acSouth.x - radarSouthSweep.x) * (acSouth.x - radarSouthSweep.x)
            + (acSouth.y - radarSouthSweep.y) * (acSouth.y - radarSouthSweep.y))
          ≤ radarSouthSweep.range),
      if_neg]
    · rfl
    · rw [show atan2South (acSouth.y - radarSouthSweep.y) (acSouth.x - radarSouthSweep.x)
          - radarSouthSweep.sweepAngle + 180 = -180 by norm_num [atan2South, radarSouthSweep]]
      rw [show jsRem (-180 : ℚ) 360 = -180 by norm_num [jsRem, rtrunc]]
      norm_num

/-- **C8, amended.**  For an aircraft not yet in the track map, in a list of
distinct ids, `detectAircraft` stores the entry `{state, lastSeen := now}`
under its id exactly when the radar-computed distance is within range, the
radar-computed angular difference (JavaScript remainder semantics) is within
half the beam width, and the next `Math.random()` draw (index = number of
earlier aircraft in the list passing both tests) is below
`max(0, 1 − distance/range) · (1 − 0.02)`; otherwise its id stays absent —
in particular an aircraft out of range or failing the computed beam test is
never newly detected. -/
theorem detectAircraft_amended (matan2 : ℚ → ℚ → ℚ) (msqrt : ℚ → ℚ)
    (rand : ℕ → ℚ) (r : Radar) (t : ℚ) (l1 l2 : List RAC) (a : RAC)
    (hnodup : (((l1 ++ a :: l2).map RAC.id)).Nodup)
    (h0 : r.trackedTargets a.id = none) :
    (Radar.detectAircraft matan2 msqrt rand r (l1 ++ a :: l2) t).trackedTargets a.id
      = if acDistance msqrt r.x r.y a ≤ r.range
            ∧ acAngleDiff matan2 r.x r.y r.sweepAngle a ≤ 30 / 2
            ∧ rand (l1.countP (beamHit matan2 msqrt r.x r.y r.range r.sweepAngle))
                < detectProbOf msqrt r.x r.y r.range a
        then some { state := a, lastSeen := t } else none := by
  rw [List.map_append, List.map_cons] at hnodup
  have hl1 : ∀ b ∈ l1, b.id ≠ a.id := by
    intro b hb he
    exact (List.nodup_append.1 hnodup).2.2 (List.mem_map_of_mem RAC.id hb)
      (by rw [he]; exact List.mem_cons_self _ _)
  have hl2 : ∀ b ∈ l2, b.id ≠ a.id := by
    intro b hb he
    exact (List.nodup_cons.1 (List.nodup_append.1 hnodup).2.1).1
      (he ▸ List.mem_map_of_mem RAC.id hb)
  have hpruned : pruneTracks r.trackedTargets t (360 / r.sweepSpeed) a.id = none := by
    unfold pruneTracks
    rw [h0]
  show detectLoop matan2 msqrt r.x r.y r.range r.sweepAngle t rand (l1 ++ a :: l2)
      (pruneTracks r.trackedTargets t (360 / r.sweepSpeed)) 0 a.id = _
  rw [detectLoop_append]
  have hM1 : detectLoop matan2 msqrt r.x r.y r.range r.sweepAngle t rand l1
      (pruneTracks r.trackedTargets t (360 / r.sweepSpeed)) 0 a.id = none := by
    rw [detectLoop_no_write l1 _ _ _ hl1, hpruned]
  simp only [Nat.zero_add]
  rw [detectLoop_cons]
  by_cases h1 : acDistance msqrt r.x r.y a ≤ r.range
  · rw [if_pos h1]
    by_cases h2 : acAngleDiff matan2 r.x r.y r.sweepAngle a ≤ 30 / 2
    · rw [if_pos h2]
      by_cases h3 : rand (l1.countP (beamHit matan2 msqrt r.x r.y r.range r.sweepAngle))
          < detectProbOf msqrt r.x r.y r.range a
      · rw [if_pos h3, if_pos ⟨h1, h2, h3⟩,
          detectLoop_no_write l2 _ _ _ hl2, mapSet_same]
      · rw [if_neg h3, if_neg (fun hc => h3 hc.2.2),
          detectLoop_no_write l2 _ _ _ hl2, hM1]
    · rw [if_neg h2, if_neg (fun hc => h2 hc.2.1),
        detectLoop_no_write l2 _ _ _ hl2, hM1]
  · rw [if_neg h1, if_neg (fun hc => h1 hc.1),
      detectLoop_no_write l2 _ _ _ hl2, mapDel_same]

/-- Witness for the amended C8: a detection that succeeds — aircraft 50 km
due north, sweep at 90° (the math-convention angle of north is +90°), draw
0 below the probability 0.49. -/
theorem detectAircraft_amended_witness :
    (Radar.detectAircraft atan2North sqrtAt2500 randZero
        { radarSouthSweep with sweepAngle := 90 } [⟨9, 0, 50⟩] 1).trackedTargets 9
      = some { state := ⟨9, 0, 50⟩, lastSeen := 1 } := by
  rw [show (9:ℚ) = (⟨9, 0, 50⟩ : RAC).id from rfl,
    show ([⟨9, 0, 50⟩] : List RAC) = [] ++ (⟨9, 0, 50⟩ : RAC) :: [] from rfl,
    detectAircraft_amended atan2North sqrtAt2500 randZero _ 1 [] [] _
      (by simp) rfl]
  rw [if_pos]
  refine ⟨?_, ?_, ?_⟩
  · norm_num [acDistance, sqrtAt2500, radarSouthSweep]
  · rw [show acAngleDiff atan2North radarSouthSweep.x radarSouthSweep.y
        ({ radarSouthSweep with sweepAngle := 90 } : Radar).sweepAngle ⟨9, 0, 50⟩
        = |jsRem (90 - 90 + 180) 360 - 180| from rfl]
    rw [show ((90:ℚ) - 90 + 180) = 180 by norm_num,
      show jsRem (180:ℚ) 360 = 180 by norm_num [jsRem, rtrunc]]
    norm_num
  · norm_num [detectProbOf, acDistance, sqrtAt2500, radarSouthSweep, randZero]

/-- **C9.** After `detectAircraft`, no tracked entry is older than one full
sweep rotation (`360/sweepSpeed` seconds), and no listed aircraft whose
computed distance exceeds the range keeps an entry — out-of-range aircraft
are removed on the spot, regardless of persistence. -/
theorem detectAircraft_prunes (matan2 : ℚ → ℚ → ℚ) (msqrt : ℚ → ℚ)
    (rand : ℕ → ℚ) (r : Radar) (l : List RAC) (t : ℚ)
    (hs : 0 < r.sweepSpeed) (hnodup : (l.map RAC.id).Nodup) :
    (∀ (key : ℚ) (tr : RTrack),
        (Radar.detectAircraft matan2 msqrt rand r l t).trackedTargets key = some tr →
          t - tr.lastSeen ≤ 360 / r.sweepSpeed) ∧
    (∀ a ∈ l, r.range < acDistance msqrt r.x r.y a →
        (Radar.detectAircraft matan2 msqrt rand r l t).trackedTargets a.id = none) := by
  constructor
  · intro key tr
    show detectLoop matan2 msqrt r.x r.y r.range r.sweepAngle t rand l
        (pruneTracks r.trackedTargets t (360 / r.sweepSpeed)) 0 key = some tr → _
    refine detectLoop_pres l _ 0 (fun tr => t - tr.lastSeen ≤ 360 / r.sweepSpeed)
      ?_ ?_ key tr
    · intro key' tr' h'
      rcases hmk : r.trackedTargets key' with _ | tr0
      · simp only [pruneTracks, hmk] at h'
        exact Option.noConfusion h'
      · simp only [pruneTracks, hmk] at h'
        split_ifs at h' with hpo
        exact (Option.some.inj h') ▸ not_lt.1 hpo
    · intro a
      rw [show ({ state := a, lastSeen := t } : RTrack).lastSeen = t from rfl, sub_self]
      exact le_of_lt (div_pos (by norm_num) hs)
  · intro a ha hfar
    obtain ⟨l1, l2, rfl⟩ := List.append_of_mem ha
    rw [List.map_append, List.map_cons] at hnodup
    have hl2 : ∀ b ∈ l2, b.id ≠ a.id := by
      intro b hb he
      exact (List.nodup_cons.1 (List.nodup_append.1 hnodup).2.1).1
        (he ▸ List.mem_map_of_mem RAC.id hb)
    show detectLoop matan2 msqrt r.x r.y r.range r.sweepAngle t rand (l1 ++ a :: l2)
        (pruneTracks r.trackedTargets t (360 / r.sweepSpeed)) 0 a.id = none
    rw [detectLoop_append, detectLoop_cons,
      if_neg (not_le.2 hfar), detectLoop_no_write l2 _ _ _ hl2, mapDel_same]

/-- Witness for C9: an aircraft 200 km out (beyond the 100 km range) is
absent from the track map after the call. -/
theorem detectAircraft_prunes_witness :
    (Radar.detectAircraft atan2South (fun _ => 200) randZero radarSouthSweep
        [⟨3, 200, 0⟩] 1).trackedTargets 3 = none := by
  have h := (detectAircraft_prunes atan2South (fun _ => 200) randZero radarSouthSweep
    [⟨3, 200, 0⟩] 1 (by norm_num [radarSouthSweep]) (by simp)).2
    ⟨3, 200, 0⟩ (List.mem_singleton_self _)
    (by norm_num [acDistance, radarSouthSweep])
  exact h

end RadarSim
